import Mathlib

/-!
Verification of the ebs-csi device manager and attach/detach orchestration.

The Go sources are shallowly embedded:

* Go maps (`map[string]string`, `map[string]DeviceAllocator`, ...) become
  association lists whose insert replaces the binding of an existing key in
  place. Go randomizes the iteration order of `range` over a map; this
  embedding scans in insertion order (confirmed entries before in-flight
  ones), so wherever a result could depend on that order - `getPath` when a
  volume sits under several merged-view keys - the theorems carry a
  uniqueness hypothesis under which every iteration order returns the same
  answer.
* Methods that mutate the receiver become functions threading an explicit
  `DMState`; the pre-call state goes in, the post-call state comes out even
  on the error paths, mirroring which mutations the Go code performs before
  returning an error.
* `fmt.Errorf` messages are built with string append; the `%q` verb is
  modelled as plain double-quoting, which is exact for ids without special
  characters.
* The `DeviceAllocator` implementation is not among the provided sources
  (only its call sites are), so it is modelled from the spec; see
  `DeviceAllocator` below.
-/

namespace EbsCsi

/-- Association list with string keys modelling a Go map: `alistInsert`
replaces the binding of an existing key in place, otherwise appends. -/
def alistInsert {α : Type} : List (String × α) → String → α → List (String × α)
  | [], k, v => [(k, v)]
  | p :: rest, k, v => if p.1 == k then (k, v) :: rest else p :: alistInsert rest k v

/-- Lookup in an association list, modelling `m[k]` with its found flag. -/
def alistFind {α : Type} (m : List (String × α)) (k : String) : Option α :=
  (m.find? (fun p => p.1 == k)).map (fun p => p.2)

/-- Key removal, modelling Go `delete(m, k)`. -/
def alistErase {α : Type} (m : List (String × α)) (k : String) : List (String × α) :=
  m.filter (fun p => !(p.1 == k))

/-- The keys of an association list. -/
def alistKeys {α : Type} (m : List (String × α)) : List String :=
  m.map (fun p => p.1)

/-- A Go map never binds a key twice; association lists reached from Go map
values satisfy this. -/
def KeysNodup {α : Type} (m : List (String × α)) : Prop :=
  (alistKeys m).Nodup

instance {α : Type} (m : List (String × α)) : Decidable (KeysNodup m) := by
  unfold KeysNodup; infer_instance

/-- A `map[string]string` value. -/
abbrev SMap := List (String × String)

/-- Merging: every entry of `att` is written over `m`, as in the Go loop
`for device, volume := range attaching { deviceMappings[device] = volume }`. -/
def smapUnion (m att : SMap) : SMap :=
  att.foldl (fun acc p => alistInsert acc p.1 p.2) m

/-- `aws.StringValue`: a nil string pointer reads as the empty string. -/
def stringValue (s : Option String) : String := s.getD ""

/-- One entry of `ec2.Instance.BlockDeviceMappings`: the device name and the
volume id of its EBS attachment, each a possibly-nil string pointer. -/
structure BlockDeviceMapping where
  deviceName : Option String
  ebsVolumeId : Option String
  deriving DecidableEq

/-- The fields of `ec2.Instance` the device manager reads. -/
structure Ec2Instance where
  instanceId : Option String
  blockDeviceMappings : List BlockDeviceMapping
  deriving DecidableEq

/-- `getInstanceID`: fails on a nil instance, otherwise reads the id. -/
def getInstanceID (inst : Option Ec2Instance) : Except String String :=
  match inst with
  | none => .error "can't get ID from a nil instance"
  | some i => .ok (stringValue i.instanceId)

/-- `const devicePreffix = "/dev/xvd"` (sic, the source misspells it). -/
def devicePreffix : String := "/dev/xvd"

/-- Modelled from the spec: the repository references a `DeviceAllocator`
(`NewDeviceAllocator`, `GetNext`, `Deprioritize`) whose implementation file
is not among the provided sources. Per spec section 4.1 the allocator keeps a
per-node ordered preference list of suffixes; `next(in_use)` returns the
first suffix in the preference order that is not present as a key of
`in_use`, or an exhaustion error once every suffix of the pool is such a
key; `deprioritize(suffix)` moves that suffix to the back of the preference
order. -/
structure DeviceAllocator where
  order : List String
  deriving DecidableEq

/-- Modelled from the spec: the fixed pool, "roughly two-dozen single-letter
slots" (section 4.1): the letters b through z. -/
def devicePool : List String :=
  ["b", "c", "d", "e", "f", "g", "h", "i", "j", "k", "l", "m",
   "n", "o", "p", "q", "r", "s", "t", "u", "v", "w", "x", "y", "z"]

/-- Modelled from the spec: a fresh allocator holds the pool in its fixed
preference order. -/
def NewDeviceAllocator : DeviceAllocator := ⟨devicePool⟩

/-- Modelled from the spec: the first suffix in the preference order that is
not a key of `inUse`; an error once every suffix is such a key. -/
def DeviceAllocator.GetNext (a : DeviceAllocator) (inUse : SMap) : Except String String :=
  match a.order.find? (fun s => !(inUse.any (fun p => p.1 == s))) with
  | some s => .ok s
  | none => .error "no devices are available"

/-- Modelled from the spec: move `s` to the back of the preference order. -/
def DeviceAllocator.Deprioritize (a : DeviceAllocator) (s : String) : DeviceAllocator :=
  ⟨if a.order.contains s then a.order.filter (fun x => !(x == s)) ++ [s] else a.order⟩

/-- The mutable fields of `blockDeviceManager`: the per-node allocators and
the per-node in-flight "attachments in progress" map. The Go mutex
serializes every operation on this state; each Lean function below is one
such serialized critical section. -/
structure DMState where
  deviceAllocators : List (String × DeviceAllocator)
  attaching : List (String × SMap)
  deriving DecidableEq

/-- `d.attaching[nodeID]`: a missing node reads as the empty map. -/
def attachingFor (d : DMState) (nodeID : String) : SMap :=
  (alistFind d.attaching nodeID).getD []

/-- `strings.HasPrefix`, on the character list (for valid UTF-8 and an ASCII
prefix such as the two device-name prefixes this equals the byte test). -/
def strStartsWith (s p : String) : Bool := p.data.isPrefixOf s.data

/-- Strip the two recognized device-name prefixes, as `getDevicesInUse` does
(first `/dev/sd`, then `/dev/xvd`; Go slices bytes, these prefixes are
ASCII so dropping characters matches). -/
def stripDeviceName (name : String) : String :=
  let n1 := if strStartsWith name "/dev/sd" then name.drop 7 else name
  if strStartsWith n1 "/dev/xvd" then n1.drop 8 else n1

/-- The confirmed view: each `BlockDeviceMappings` entry inserted under its
prefix-stripped name (an out-of-range residual length only warns). -/
def confirmedMappings (inst : Ec2Instance) : SMap :=
  smapUnion []
    (inst.blockDeviceMappings.map
      (fun bd => (stripDeviceName (stringValue bd.deviceName), stringValue bd.ebsVolumeId)))

/-- `getDevicesInUse`: the confirmed view overwritten with the node's
in-flight entries. The Go version also returns an error value but no path
produces one, so the callers' error branches are dead and dropped here. -/
def getDevicesInUse (d : DMState) (inst : Ec2Instance) (nodeID : String) : SMap :=
  smapUnion (confirmedMappings inst) (attachingFor d nodeID)

/-- `getPath`: some device path mapped to `volumeID`, or `""` when none.
The Go loop ranges over a map in randomized order and returns whichever
matching path it hits first; this embedding deterministically returns the
first match in insertion order, so theorems that pin down its result
hypothesize that at most one entry matches (then the order is moot). -/
def getPath (deviceMappings : SMap) (volumeID : String) : String :=
  match deviceMappings.find? (fun p => p.2 == volumeID) with
  | some p => p.1
  | none => ""

/-- `BlockDevice` (the release closure is the manager's `release` below; the
taint flag starts false as in `newBlockDevice`). -/
structure BlockDevice where
  inst : Option Ec2Instance
  Path : String
  VolumeID : String
  IsAlreadyAssigned : Bool
  isTainted : Bool
  deriving DecidableEq

/-- `newBlockDevice`, the manager's constructor helper. -/
def mkBlockDevice (inst : Option Ec2Instance) (volumeID path : String)
    (isAlreadyAssigned : Bool) : BlockDevice :=
  ⟨inst, path, volumeID, isAlreadyAssigned, false⟩

/-- What `NewBlockDevice` hands back on success, plus one instrumentation
bit: whether the allocator was consulted (`GetNext` reached). -/
structure ReserveRes where
  device : BlockDevice
  allocatorCalled : Bool
  deriving DecidableEq

/-- `blockDeviceManager.NewBlockDevice`. Returns the post-call state (the
Go method mutates the receiver even on the exhaustion error path, which has
already lazily created the allocator) and the result. -/
def NewBlockDevice (d : DMState) (instOpt : Option Ec2Instance) (volumeID : String) :
    DMState × Except String ReserveRes :=
  match instOpt with
  | none => (d, .error "can't get ID from a nil instance")
  | some inst =>
    let nodeID := stringValue inst.instanceId
    let deviceMappings := getDevicesInUse d inst nodeID
    let path0 := getPath deviceMappings volumeID
    if path0 == "" then
      -- find the next unused device name
      let (d1, deviceAllocator) :=
        match alistFind d.deviceAllocators nodeID with
        | some a => (d, a)
        | none =>
          (⟨alistInsert d.deviceAllocators nodeID NewDeviceAllocator, d.attaching⟩,
           NewDeviceAllocator)
      match deviceAllocator.GetNext deviceMappings with
      | .error _ => (d1, .error ("too many EBS volumes attached to node " ++ nodeID))
      | .ok suffix =>
        let path := devicePreffix ++ suffix
        let attaching := attachingFor d1 nodeID
        -- record in-flight, then deprioritize the chosen suffix
        (⟨alistInsert d1.deviceAllocators nodeID (deviceAllocator.Deprioritize suffix),
          alistInsert d1.attaching nodeID (alistInsert attaching path volumeID)⟩,
         .ok ⟨mkBlockDevice (some inst) volumeID path false, true⟩)
    else
      -- already assigned a device on this machine
      (d, .ok ⟨mkBlockDevice (some inst) volumeID path0 true, false⟩)

/-- `blockDeviceManager.GetBlockDevice` (read-only). -/
def GetBlockDevice (d : DMState) (instOpt : Option Ec2Instance) (volumeID : String) :
    DMState × Except String BlockDevice :=
  match instOpt with
  | none => (d, .error "can't get ID from a nil instance")
  | some inst =>
    let nodeID := stringValue inst.instanceId
    let inUse := getDevicesInUse d inst nodeID
    let path := getPath inUse volumeID
    let device := mkBlockDevice (some inst) volumeID path false
    if path == "" then (d, .ok device)
    else (d, .ok { device with IsAlreadyAssigned := true })

/-- The `%q` verb on an id without special characters. -/
def goQuote (s : String) : String := "\"" ++ s ++ "\""

/-- `blockDeviceManager.release`: the post-call state and the error, if any
(`none` = success). Both failure branches return before any mutation. -/
def release (d : DMState) (device : BlockDevice) : DMState × Option String :=
  match device.inst with
  | none => (d, some "can't get ID from a nil instance")
  | some i =>
    let nodeID := stringValue i.instanceId
    let att := attachingFor d nodeID
    match alistFind att device.Path with
    | none =>
      (d, some ("release called for disk " ++ goQuote device.VolumeID
        ++ " when attach not in progress"))
    | some existingVolumeID =>
      if device.VolumeID == existingVolumeID then
        (⟨d.deviceAllocators, alistInsert d.attaching nodeID (alistErase att device.Path)⟩,
         none)
      else
        (d, some ("release on device " ++ goQuote device.Path
          ++ " assigned to different volume: " ++ goQuote device.VolumeID
          ++ " vs " ++ goQuote existingVolumeID))

/-- `BlockDevice.Taint`. -/
def BlockDevice.Taint (device : BlockDevice) : BlockDevice :=
  { device with isTainted := true }

/-- `BlockDevice.Release(force)`: runs the release closure unless tainted
and not forced; a release error is only logged, so the state is the release
call's post-state either way. -/
def BlockDevice.Release (device : BlockDevice) (d : DMState) (force : Bool) : DMState :=
  if !device.isTainted || force then (release d device).1 else d

/-- The collaborators `Cloud.AttachDisk` / `Cloud.DetachDisk` call: the
device manager used by `Cloud` (`GetDevice`, `GetAssignedDevice`,
`ReleaseDevice`) and the EC2 API calls, given as oracles so the
orchestration layer can be analyzed over every outcome of each call. -/
structure CloudEnv where
  getDevice : String → String → Except String (String × Bool)
  attachVolume : String → String → String → Except String Unit
  getAssignedDevice : String → String → Except String String
  detachVolume : String → String → Except String Unit
  releaseDevice : String → String → String → Except String Unit

deriving instance DecidableEq for Except

/-- Result of `Cloud.AttachDisk`, with the call trace the claims are about:
the arguments of each `ReleaseDevice` invocation, how many times
`ec2.AttachVolume` ran, and how many times an attachment-status wait ran
(the `waitForAttachmentStatus` block is commented out in the source, so the
embedded code never increments it). -/
structure AttachOut where
  result : Except String String
  releaseCalls : List (String × String × String)
  attachVolumeCalls : Nat
  waitForAttachmentCalls : Nat
  deriving DecidableEq

/-- The wrapped `AttachVolume` failure message. -/
def attachErr (volumeID nodeID cause : String) : String :=
  "could not attach volume " ++ goQuote volumeID ++ " to node " ++ goQuote nodeID
    ++ ": " ++ cause

/-- `Cloud.AttachDisk`: reserve a device, call `AttachVolume` unless already
attached, and run the deferred `ReleaseDevice` exactly when the
`attachEnded` flag was set before returning. No waiting for or verification
of the reported attachment happens (that block is commented out). -/
def AttachDisk (env : CloudEnv) (volumeID nodeID : String) : AttachOut :=
  match env.getDevice nodeID volumeID with
  | .error mntErr => ⟨.error mntErr, [], 0, 0⟩
  | .ok (mntDevice, alreadyAttached) =>
    -- (result, attachEnded, AttachVolume call count) of the body
    let step : Except String String × Bool × Nat :=
      if alreadyAttached then
        (.ok mntDevice, true, 0)
      else
        match env.attachVolume mntDevice nodeID volumeID with
        | .error err => (.error (attachErr volumeID nodeID err), true, 1)
        | .ok _ => (.ok mntDevice, true, 1)
    ⟨step.1, if step.2.1 then [(nodeID, volumeID, mntDevice)] else [], step.2.2, 0⟩

/-- Result of `Cloud.DetachDisk` with its `ReleaseDevice` call trace. -/
structure DetachOut where
  result : Except String Unit
  releaseCalls : List (String × String × String)
  deriving DecidableEq

/-- The wrapped `DetachVolume` failure message. -/
def detachErr (volumeID nodeID cause : String) : String :=
  "could not detach volume " ++ goQuote volumeID ++ " from node " ++ goQuote nodeID
    ++ ": " ++ cause

/-- `Cloud.DetachDisk`: look up the assigned device, call `DetachVolume`,
and on success release the device only when its path is non-empty; the
release outcome is not read ("We don't check the return value"). -/
def DetachDisk (env : CloudEnv) (volumeID nodeID : String) : DetachOut :=
  match env.getAssignedDevice nodeID volumeID with
  | .error e => ⟨.error e, []⟩
  | .ok mntDevice =>
    match env.detachVolume nodeID volumeID with
    | .error err => ⟨.error (detachErr volumeID nodeID err), []⟩
    | .ok _ =>
      if mntDevice == "" then ⟨.ok (), []⟩
      else ⟨.ok (), [(nodeID, volumeID, mntDevice)]⟩

/-- Success flag of a manager call. -/
def resOk {α : Type} (r : DMState × Except String α) : Bool :=
  match r.2 with
  | .ok _ => true
  | .error _ => false

/-- The device a successful `NewBlockDevice` returned (a default for the
error case, used only after `resOk`). -/
def resDevice (r : DMState × Except String ReserveRes) : BlockDevice :=
  match r.2 with
  | .ok res => res.device
  | .error _ => ⟨none, "", "", false, false⟩

/-- The path of a successful `NewBlockDevice` result. -/
def resPath (r : DMState × Except String ReserveRes) : String :=
  (resDevice r).Path

/-- Success flag of an `Except`. -/
def exceptOk {ε α : Type} (r : Except ε α) : Bool :=
  match r with
  | .ok _ => true
  | .error _ => false

/-! Concrete scenarios used by the counterexample and evaluation theorems
below. -/

/-- The pool letters d through z: a confirmed attachment for each leaves
exactly b and c initially free. -/
def c1Letters : List String :=
  ["d", "e", "f", "g", "h", "i", "j", "k", "l", "m", "n", "o",
   "p", "q", "r", "s", "t", "u", "v", "w", "x", "y", "z"]

/-- Node `i-1` with confirmed attachments `/dev/xvdd` ... `/dev/xvdz`
holding volumes `cv-d` ... `cv-z`. -/
def c1Inst : Ec2Instance :=
  ⟨some "i-1", c1Letters.map (fun l => ⟨some (devicePreffix ++ l), some ("cv-" ++ l)⟩)⟩

/-- Reserve `u1` from the empty registry: it gets `/dev/xvdb`. -/
def c1r1 : DMState × Except String ReserveRes :=
  NewBlockDevice ⟨[], []⟩ (some c1Inst) "u1"

/-- Reserve `u2` next: it gets `/dev/xvdc`. -/
def c1r2 : DMState × Except String ReserveRes :=
  NewBlockDevice c1r1.1 (some c1Inst) "u2"

/-- Release the `u2` reservation (its suffix c is now free again, but the
allocator preference order has rotated past it). -/
def c1s3 : DMState := (release c1r2.1 (resDevice c1r2)).1

/-- Reserve a third, distinct volume `u3` while `u1` is still in flight. -/
def c1r4 : DMState × Except String ReserveRes :=
  NewBlockDevice c1s3 (some c1Inst) "u3"

/-- A confirmed attachment whose device name is exactly `/dev/sd`: the
stripped residual is the empty string, which `getDevicesInUse` tolerates
with only a warning. -/
def c2Inst : Ec2Instance := ⟨some "i-1", [⟨some "/dev/sd", some "vol-X"⟩]⟩

/-- Node `i-1` with every pool suffix already confirmed in use. -/
def c7Inst : Ec2Instance :=
  ⟨some "i-1", devicePool.map (fun l => ⟨some (devicePreffix ++ l), some ("cv-" ++ l)⟩)⟩

/-- The exhausted reservation attempt. -/
def c7r : DMState × Except String ReserveRes :=
  NewBlockDevice ⟨[], []⟩ (some c7Inst) "u1"

/-- A cloud whose device manager reserves `/dev/xvdf` (not already
attached) and whose EC2 calls all succeed. -/
def okEnv : CloudEnv :=
  ⟨fun _ _ => .ok ("/dev/xvdf", false),
   fun _ _ _ => .ok (),
   fun _ _ => .ok "/dev/xvdf",
   fun _ _ => .ok (),
   fun _ _ _ => .ok ()⟩

/-- `okEnv` with a failing `AttachVolume`. -/
def failAttachEnv : CloudEnv :=
  { okEnv with attachVolume := fun _ _ _ => .error "api outage" }

/-! Association-list and merged-view lemmas. -/

theorem alistFind_nil {α : Type} (k : String) : alistFind ([] : List (String × α)) k = none := rfl

theorem alistFind_cons {α : Type} (p : String × α) (m : List (String × α)) (k : String) :
    alistFind (p :: m) k = if p.1 = k then some p.2 else alistFind m k := by
  by_cases h : p.1 = k <;> simp [alistFind, List.find?_cons, h]

theorem alistFind_insert_self {α : Type} (m : List (String × α)) (k : String) (v : α) :
    alistFind (alistInsert m k v) k = some v := by
  induction m with
  | nil => simp [alistInsert, alistFind_cons, alistFind_nil]
  | cons p rest ih =>
    by_cases h : p.1 = k
    · simp [alistInsert, h, alistFind_cons]
    · simp [alistInsert, h, alistFind_cons, ih]

theorem alistFind_insert_ne {α : Type} (m : List (String × α)) {k k' : String} (v : α)
    (h : k' ≠ k) : alistFind (alistInsert m k v) k' = alistFind m k' := by
  have h2 : ¬(k = k') := fun hh => h (Eq.symm hh)
  induction m with
  | nil => simp [alistInsert, alistFind_cons, alistFind_nil, h2]
  | cons p rest ih =>
    by_cases hpk : p.1 = k
    · simp [alistInsert, hpk, alistFind_cons, h2]
    · simp [alistInsert, hpk, alistFind_cons, ih]

theorem alistFind_mem {α : Type} {m : List (String × α)} {k : String} {v : α}
    (h : alistFind m k = some v) : (k, v) ∈ m := by
  induction m with
  | nil => simp [alistFind_nil] at h
  | cons p rest ih =>
    obtain ⟨p1, p2⟩ := p
    rw [alistFind_cons] at h
    by_cases hpk : p1 = k
    · subst hpk
      rw [if_pos rfl] at h
      injection h with h
      subst h
      exact List.mem_cons_self _ _
    · rw [if_neg hpk] at h
      exact List.mem_cons_of_mem _ (ih h)

theorem mem_alistKeys_iff {α : Type} {m : List (String × α)} {k : String} :
    k ∈ alistKeys m ↔ ∃ p ∈ m, p.1 = k := by
  unfold alistKeys
  exact List.mem_map

theorem alistFind_eq_none {α : Type} {m : List (String × α)} {k : String}
    (h : k ∉ alistKeys m) : alistFind m k = none := by
  unfold alistFind
  rw [List.find?_eq_none.mpr]
  · rfl
  · intro p hp
    simp only [beq_iff_eq]
    intro hpk
    exact h (mem_alistKeys_iff.mpr ⟨p, hp, hpk⟩)

theorem mem_alistFind {α : Type} {m : List (String × α)} {k : String} {v : α}
    (hnd : KeysNodup m) (h : (k, v) ∈ m) : alistFind m k = some v := by
  induction m with
  | nil => simp at h
  | cons p rest ih =>
    unfold KeysNodup alistKeys at hnd
    simp only [List.map_cons, List.nodup_cons] at hnd
    rcases List.mem_cons.mp h with h | h
    · rw [← h, alistFind_cons, if_pos rfl]
    · rw [alistFind_cons, if_neg, ih hnd.2 h]
      intro hk
      exact hnd.1 (hk ▸ mem_alistKeys_iff.mpr ⟨(k, v), h, rfl⟩)

theorem mem_alistInsert {α : Type} {m : List (String × α)} {k : String} {v : α}
    {p : String × α} (h : p ∈ alistInsert m k v) : p ∈ m ∨ p = (k, v) := by
  induction m with
  | nil => simp [alistInsert] at h; exact Or.inr h
  | cons q rest ih =>
    by_cases hqk : q.1 = k
    · simp only [alistInsert, hqk, beq_self_eq_true, if_true] at h
      rcases List.mem_cons.mp h with h | h
      · exact Or.inr h
      · exact Or.inl (List.mem_cons_of_mem _ h)
    · have hb : (q.1 == k) = false := by simp [hqk]
      simp only [alistInsert, hb, Bool.false_eq_true, if_false] at h
      rcases List.mem_cons.mp h with h | h
      · exact Or.inl (h ▸ List.mem_cons_self _ _)
      · rcases ih h with h | h
        · exact Or.inl (List.mem_cons_of_mem _ h)
        · exact Or.inr h

theorem mem_alistKeys_insert {α : Type} {m : List (String × α)} {k a : String} {v : α}
    (h : a ∈ alistKeys (alistInsert m k v)) : a ∈ alistKeys m ∨ a = k := by
  rw [mem_alistKeys_iff] at h
  obtain ⟨p, hp, hpa⟩ := h
  rcases mem_alistInsert hp with h | h
  · exact Or.inl (mem_alistKeys_iff.mpr ⟨p, h, hpa⟩)
  · subst h
    exact Or.inr hpa.symm

theorem keysNodup_alistInsert {α : Type} {m : List (String × α)} (k : String) (v : α)
    (h : KeysNodup m) : KeysNodup (alistInsert m k v) := by
  induction m with
  | nil => simp [alistInsert, KeysNodup, alistKeys]
  | cons p rest ih =>
    unfold KeysNodup alistKeys at h ⊢
    simp only [List.map_cons, List.nodup_cons] at h
    by_cases hpk : p.1 = k
    · simp only [alistInsert, hpk, beq_self_eq_true, if_true, List.map_cons,
        List.nodup_cons]
      exact ⟨fun hk => h.1 (hpk ▸ hk), h.2⟩
    · have hb : (p.1 == k) = false := by simp [hpk]
      simp only [alistInsert, hb, Bool.false_eq_true, if_false, List.map_cons,
        List.nodup_cons]
      constructor
      · intro hk
        rcases mem_alistKeys_insert hk with hk | hk
        · exact h.1 hk
        · exact hpk hk
      · exact ih h.2

theorem alistInsert_alistInsert {α : Type} (m : List (String × α)) (k : String) (v w : α) :
    alistInsert (alistInsert m k v) k w = alistInsert m k w := by
  induction m with
  | nil => simp [alistInsert]
  | cons p rest ih =>
    by_cases hpk : p.1 = k
    · simp [alistInsert, hpk]
    · simp [alistInsert, hpk, ih]

theorem alistInsert_of_find {α : Type} {m : List (String × α)} {k : String} {v : α}
    (h : alistFind m k = some v) : alistInsert m k v = m := by
  induction m with
  | nil => simp [alistFind_nil] at h
  | cons p rest ih =>
    obtain ⟨p1, p2⟩ := p
    rw [alistFind_cons] at h
    by_cases hpk : p1 = k
    · subst hpk
      rw [if_pos rfl] at h
      injection h with h
      subst h
      simp [alistInsert]
    · rw [if_neg hpk] at h
      simp [alistInsert, hpk, ih h]

theorem smapUnion_nil (m : SMap) : smapUnion m [] = m := rfl

theorem smapUnion_cons (m : SMap) (p : String × String) (att : SMap) :
    smapUnion m (p :: att) = smapUnion (alistInsert m p.1 p.2) att := rfl

theorem getDevicesInUse_eq (d : DMState) (inst : Ec2Instance) (nodeID : String) :
    getDevicesInUse d inst nodeID
      = smapUnion (confirmedMappings inst) (attachingFor d nodeID) := rfl

theorem keysNodup_smapUnion (att : SMap) :
    ∀ m : SMap, KeysNodup m → KeysNodup (smapUnion m att) := by
  induction att with
  | nil => exact fun m h => h
  | cons p rest ih => exact fun m h => ih _ (keysNodup_alistInsert _ _ h)

theorem keysNodup_confirmed (inst : Ec2Instance) : KeysNodup (confirmedMappings inst) := by
  apply keysNodup_smapUnion
  simp [KeysNodup, alistKeys]

theorem alistFind_smapUnion {att : SMap} (hnd : KeysNodup att) :
    ∀ (m : SMap) (k : String),
      alistFind (smapUnion m att) k =
        match alistFind att k with
        | some v => some v
        | none => alistFind m k := by
  induction att with
  | nil => intro m k; simp [smapUnion_nil, alistFind_nil]
  | cons p rest ih =>
    intro m k
    unfold KeysNodup alistKeys at hnd
    simp only [List.map_cons, List.nodup_cons] at hnd
    have hnd2 : KeysNodup rest := hnd.2
    rw [smapUnion_cons, ih hnd2, alistFind_cons]
    by_cases hpk : p.1 = k
    · rw [if_pos hpk]
      have hnone : alistFind rest k = none :=
        alistFind_eq_none (fun hk => hnd.1 (hpk ▸ hk))
      rw [hnone, ← hpk, alistFind_insert_self]
    · rw [if_neg hpk]
      cases hfr : alistFind rest k with
      | some v => rfl
      | none =>
        simp only []
        exact alistFind_insert_ne _ _ (fun hh => hpk (Eq.symm hh))

theorem getPath_empty_or_mem (m : SMap) (v : String) :
    getPath m v = "" ∨ (getPath m v, v) ∈ m := by
  unfold getPath
  cases hf : m.find? (fun p => p.2 == v) with
  | none => exact Or.inl rfl
  | some q =>
    right
    have hq : q ∈ m := List.mem_of_find?_eq_some hf
    have hv := List.find?_some hf
    have hqv : q.2 = v := by simpa using hv
    obtain ⟨q1, q2⟩ := q
    simp_all

theorem getPath_isSome_of_mem {m : SMap} {k v : String} (h : (k, v) ∈ m) :
    ∃ q, m.find? (fun p => p.2 == v) = some q := by
  have hs : (m.find? (fun p => p.2 == v)).isSome := by
    rw [List.find?_isSome]
    exact ⟨(k, v), h, by simp⟩
  cases hf : m.find? (fun p => p.2 == v) with
  | none => rw [hf] at hs; simp at hs
  | some q => exact ⟨q, rfl⟩

theorem getPath_unique {m : SMap} {P v : String} (hmem : (P, v) ∈ m)
    (huniq : ∀ q ∈ m, q.2 = v → q.1 = P) : getPath m v = P := by
  obtain ⟨q, hq⟩ := getPath_isSome_of_mem hmem
  have hqm : q ∈ m := List.mem_of_find?_eq_some hq
  have hv := List.find?_some hq
  have hqv : q.2 = v := by simpa using hv
  unfold getPath
  rw [hq]
  exact huniq q hqm hqv

theorem getPath_of_not_value {m : SMap} {v : String} (h : ∀ p ∈ m, p.2 ≠ v) :
    getPath m v = "" := by
  unfold getPath
  rw [List.find?_eq_none.mpr (fun p hp => by simpa using h p hp)]

theorem not_value_of_getPath_empty {m : SMap} {v : String}
    (h : getPath m v = "") (hne : ∀ k, (k, v) ∈ m → k ≠ "") : ∀ k, (k, v) ∉ m := by
  intro k hk
  obtain ⟨q, hq⟩ := getPath_isSome_of_mem hk
  have hv := List.find?_some hq
  have hqv : q.2 = v := by simpa using hv
  have hqm : q ∈ m := List.mem_of_find?_eq_some hq
  have hq1 : getPath m v = q.1 := by unfold getPath; rw [hq]
  have hne1 : q.1 ≠ "" := by
    apply hne q.1
    obtain ⟨q1, q2⟩ := q
    simp_all
  exact hne1 (hq1 ▸ h)

theorem mem_smapUnion {q : String × String} (att : SMap) :
    ∀ m : SMap, q ∈ smapUnion m att → q ∈ m ∨ q ∈ att := by
  induction att with
  | nil => exact fun m h => Or.inl h
  | cons p rest ih =>
    intro m h
    rcases ih _ h with h2 | h2
    · rcases mem_alistInsert h2 with h3 | h3
      · exact Or.inl h3
      · right
        rw [h3]
        exact List.mem_cons_self _ _
    · exact Or.inr (List.mem_cons_of_mem _ h2)

theorem forall_ne_of_alistFind_none {α : Type} {m : List (String × α)} {k : String}
    (h : alistFind m k = none) : ∀ q ∈ m, q.1 ≠ k := by
  intro q hq hqk
  cases hf : m.find? (fun p => p.1 == k) with
  | some p =>
    unfold alistFind at h
    rw [hf] at h
    simp at h
  | none =>
    have := List.find?_eq_none.mp hf q hq
    simp [hqk] at this

theorem alistFind_smapUnion_absent {att : SMap} {k : String}
    (h : ∀ q ∈ att, q.1 ≠ k) :
    ∀ m : SMap, alistFind (smapUnion m att) k = alistFind m k := by
  induction att with
  | nil => exact fun m => rfl
  | cons p rest ih =>
    intro m
    rw [smapUnion_cons, ih (fun q hq => h q (List.mem_cons_of_mem _ hq))]
    exact alistFind_insert_ne _ _ (fun hh => h p (List.mem_cons_self _ _) (Eq.symm hh))

theorem alistFind_smapUnion_const {L : SMap} {k v : String} :
    (∀ q ∈ L, q.1 = k → q.2 = v) → (∃ q ∈ L, q.1 = k) →
    ∀ m : SMap, alistFind (smapUnion m L) k = some v := by
  induction L with
  | nil =>
    intro _ hex m
    obtain ⟨q, hq, _⟩ := hex
    simp at hq
  | cons p rest ih =>
    intro hall hex m
    rw [smapUnion_cons]
    by_cases hr : ∃ q ∈ rest, q.1 = k
    · exact ih (fun q hq => hall q (List.mem_cons_of_mem _ hq)) hr _
    · have hrest : ∀ q ∈ rest, q.1 ≠ k := fun q hq hqk => hr ⟨q, hq, hqk⟩
      rw [alistFind_smapUnion_absent hrest]
      obtain ⟨q, hq, hqk⟩ := hex
      have hqp : q = p := by
        rcases List.mem_cons.mp hq with hh | hh
        · exact hh
        · exact absurd hqk (hrest q hh)
      have hpk : p.1 = k := hqp ▸ hqk
      have hpv : p.2 = v := hall p (List.mem_cons_self _ _) hpk
      rw [← hpk, alistFind_insert_self, hpv]

theorem eq_of_mem_of_length_le_one {α : Type} {l : List α} (h : l.length ≤ 1)
    {a b : α} (ha : a ∈ l) (hb : b ∈ l) : a = b := by
  cases l with
  | nil => simp at ha
  | cons x xs =>
    cases xs with
    | nil =>
      simp at ha hb
      rw [ha, hb]
    | cons y ys =>
      simp [List.length_cons] at h

end EbsCsi

namespace EbsCsi

theorem NewBlockDevice_assigned (d : DMState) (inst : Ec2Instance) (vol : String)
    (h : getPath (getDevicesInUse d inst (stringValue inst.instanceId)) vol ≠ "") :
    NewBlockDevice d (some inst) vol
      = (d, .ok ⟨mkBlockDevice (some inst) vol
          (getPath (getDevicesInUse d inst (stringValue inst.instanceId)) vol) true, false⟩) := by
  have hb : (getPath (getDevicesInUse d inst (stringValue inst.instanceId)) vol == "") = false := by
    simpa using h
  simp [NewBlockDevice, hb]

theorem NewBlockDevice_fresh (d : DMState) (inst : Ec2Instance) (vol s : String)
    (hp : getPath (getDevicesInUse d inst (stringValue inst.instanceId)) vol = "")
    (hnext : ((alistFind d.deviceAllocators (stringValue inst.instanceId)).getD
        NewDeviceAllocator).GetNext (getDevicesInUse d inst (stringValue inst.instanceId))
        = .ok s) :
    NewBlockDevice d (some inst) vol
      = (⟨alistInsert d.deviceAllocators (stringValue inst.instanceId)
            (((alistFind d.deviceAllocators (stringValue inst.instanceId)).getD
              NewDeviceAllocator).Deprioritize s),
          alistInsert d.attaching (stringValue inst.instanceId)
            (alistInsert (attachingFor d (stringValue inst.instanceId))
              (devicePreffix ++ s) vol)⟩,
         .ok ⟨mkBlockDevice (some inst) vol (devicePreffix ++ s) false, true⟩) := by
  cases halloc : alistFind d.deviceAllocators (stringValue inst.instanceId) with
  | some a =>
    rw [halloc] at hnext
    simp only [Option.getD_some] at hnext
    simp [NewBlockDevice, hp, halloc, hnext, attachingFor]
  | none =>
    rw [halloc] at hnext
    simp only [Option.getD_none] at hnext
    simp [NewBlockDevice, hp, halloc, hnext, attachingFor, alistInsert_alistInsert]

theorem NewBlockDevice_exhausted (d : DMState) (inst : Ec2Instance) (vol e : String)
    (hp : getPath (getDevicesInUse d inst (stringValue inst.instanceId)) vol = "")
    (hnext : ((alistFind d.deviceAllocators (stringValue inst.instanceId)).getD
        NewDeviceAllocator).GetNext (getDevicesInUse d inst (stringValue inst.instanceId))
        = .error e) :
    NewBlockDevice d (some inst) vol
      = (⟨alistInsert d.deviceAllocators (stringValue inst.instanceId)
            ((alistFind d.deviceAllocators (stringValue inst.instanceId)).getD
              NewDeviceAllocator),
          d.attaching⟩,
         .error ("too many EBS volumes attached to node " ++ stringValue inst.instanceId)) := by
  cases halloc : alistFind d.deviceAllocators (stringValue inst.instanceId) with
  | some a =>
    rw [halloc] at hnext
    simp only [Option.getD_some] at hnext ⊢
    rw [alistInsert_of_find halloc]
    simp [NewBlockDevice, hp, halloc, hnext]
  | none =>
    rw [halloc] at hnext
    simp only [Option.getD_none] at hnext
    simp [NewBlockDevice, hp, halloc, hnext]

end EbsCsi

namespace EbsCsi

theorem devicePreffix_append_ne (s : String) : devicePreffix ++ s ≠ "" := by
  intro h0
  have hl := congrArg String.length h0
  rw [String.length_append] at hl
  have h8 : devicePreffix.length = 8 := rfl
  have h0l : ("" : String).length = 0 := rfl
  rw [h8, h0l] at hl
  omega

/-- C3: release fails with the not-in-progress error when no in-flight entry
exists for (node, path), fails with the mismatch error naming both the
requested and the stored volume id when the stored id differs, deletes the
entry otherwise, and on either failure leaves the in-flight map exactly as
it was. -/
theorem c3_release_error_handling (d : DMState) (i : Ec2Instance)
    (p v : String) (a t : Bool) :
    (alistFind (attachingFor d (stringValue i.instanceId)) p = none →
      release d ⟨some i, p, v, a, t⟩
        = (d, some ("release called for disk " ++ goQuote v
            ++ " when attach not in progress")))
    ∧ (∀ w, alistFind (attachingFor d (stringValue i.instanceId)) p = some w → v ≠ w →
      release d ⟨some i, p, v, a, t⟩
        = (d, some ("release on device " ++ goQuote p
            ++ " assigned to different volume: " ++ goQuote v ++ " vs " ++ goQuote w)))
    ∧ (alistFind (attachingFor d (stringValue i.instanceId)) p = some v →
      release d ⟨some i, p, v, a, t⟩
        = (⟨d.deviceAllocators,
            alistInsert d.attaching (stringValue i.instanceId)
              (alistErase (attachingFor d (stringValue i.instanceId)) p)⟩, none)
      ∧ alistFind (alistErase (attachingFor d (stringValue i.instanceId)) p) p = none) := by
  refine ⟨fun hnone => ?_, fun w hsome hne => ?_, fun hsome => ⟨?_, ?_⟩⟩
  · simp [release, hnone]
  · have hb : (v == w) = false := by simp [hne]
    simp [release, hsome, hb]
  · simp [release, hsome]
  · apply alistFind_eq_none
    intro hk
    rw [mem_alistKeys_iff] at hk
    obtain ⟨q, hq, hq1⟩ := hk
    unfold alistErase at hq
    have := List.of_mem_filter hq
    rw [hq1] at this
    simp at this

/-- C9: after Taint, Release(force := false) is a no-op leaving the registry
untouched, Release(force := true) still performs the release, and a
never-tainted device releases normally on Release(force := false); the
manager release itself ignores the taint flag. -/
theorem c9_taint_release (d : DMState) (i : Option Ec2Instance)
    (p v : String) (b : Bool) :
    BlockDevice.Release (BlockDevice.Taint ⟨i, p, v, b, false⟩) d false = d
    ∧ BlockDevice.Release (BlockDevice.Taint ⟨i, p, v, b, false⟩) d true
        = (release d ⟨i, p, v, b, false⟩).1
    ∧ BlockDevice.Release ⟨i, p, v, b, false⟩ d false = (release d ⟨i, p, v, b, false⟩).1
    ∧ release d (BlockDevice.Taint ⟨i, p, v, b, false⟩) = release d ⟨i, p, v, b, false⟩ :=
  ⟨rfl, rfl, rfl, rfl⟩

/-- C4: evaluated at a concrete attach whose cloud call succeeds, AttachDisk
returns success immediately: it performs no wait for a terminal attached
state and no verification of the reported device or instance (the
`waitForAttachmentStatus` block of the source is commented out), contrary to
the required wait-then-verify step the spec mandates. -/
theorem c4_attach_returns_without_wait_or_verify :
    AttachDisk okEnv "vol-1" "i-1"
      = ⟨.ok "/dev/xvdf", [("i-1", "vol-1", "/dev/xvdf")], 1, 0⟩ := by decide

/-- C5: once GetDevice has returned a reservation, the deferred ReleaseDevice
runs exactly once on every exit path of AttachDisk (success or AttachVolume
failure); the AttachVolume call is skipped exactly when the device was
already assigned; and an AttachVolume failure is returned wrapping the
underlying cause. -/
theorem c5_release_exactly_once (env : CloudEnv) (vol node dev : String)
    (already : Bool) (h : env.getDevice node vol = .ok (dev, already)) :
    AttachDisk env vol node
      = ⟨(if already then .ok dev
          else
            match env.attachVolume dev node vol with
            | .ok _ => .ok dev
            | .error c => .error (attachErr vol node c)),
         [(node, vol, dev)],
         (if already then 0 else 1),
         0⟩ := by
  cases already with
  | true => simp [AttachDisk, h]
  | false =>
    cases hav : env.attachVolume dev node vol with
    | ok u => simp [AttachDisk, h, hav]
    | error c => simp [AttachDisk, h, hav]

theorem c5_release_exactly_once_witness :
    AttachDisk failAttachEnv "vol-1" "i-1"
      = ⟨.error (attachErr "vol-1" "i-1" "api outage"),
         [("i-1", "vol-1", "/dev/xvdf")], 1, 0⟩ :=
  (c5_release_exactly_once failAttachEnv "vol-1" "i-1" "/dev/xvdf" false rfl).trans
    (by decide)

/-- C8: when the DetachVolume call fails, DetachDisk returns the wrapped
cause and performs no release; after a successful DetachVolume, the release
runs exactly when the looked-up device path is non-empty; and the outcome of
the release cannot affect the result (DetachDisk never reads it), so detach
still returns success. -/
theorem c8_detach_error_handling (env : CloudEnv) (vol node dev : String)
    (f : String → String → String → Except String Unit)
    (h : env.getAssignedDevice node vol = .ok dev) :
    DetachDisk env vol node
      = ⟨(match env.detachVolume node vol with
          | .ok _ => .ok ()
          | .error c => .error (detachErr vol node c)),
         (match env.detachVolume node vol with
          | .ok _ => if dev == "" then [] else [(node, vol, dev)]
          | .error _ => [])⟩
    ∧ DetachDisk { env with releaseDevice := f } vol node = DetachDisk env vol node := by
  constructor
  · cases hdv : env.detachVolume node vol with
    | ok u => by_cases hd : dev = "" <;> simp [DetachDisk, h, hdv, hd]
    | error c => simp [DetachDisk, h, hdv]
  · rfl

theorem c8_detach_error_handling_witness :
    DetachDisk okEnv "vol-1" "i-1" = ⟨.ok (), [("i-1", "vol-1", "/dev/xvdf")]⟩
    ∧ DetachDisk { okEnv with releaseDevice := fun _ _ _ => .error "not in progress" }
        "vol-1" "i-1" = DetachDisk okEnv "vol-1" "i-1" := by
  have hh := c8_detach_error_handling okEnv "vol-1" "i-1" "/dev/xvdf"
    (fun _ _ _ => .error "not in progress") rfl
  exact ⟨hh.1.trans (by decide), hh.2⟩

/-- C1: evaluated on a reachable registry state, two reservation requests for
the distinct volumes u1 and u3 both yield the device path /dev/xvdb while
the u1 reservation is still outstanding, and the later request silently
overwrites the in-flight entry of the earlier one (the in-flight map keys
are full paths while the allocator checks bare suffixes, so the allocator
reissues a suffix whose path is still reserved). -/
theorem c1_device_path_collision :
    resOk c1r1 = true ∧ resPath c1r1 = "/dev/xvdb"
    ∧ (resDevice c1r1).VolumeID = "u1"
    ∧ resOk c1r4 = true ∧ resPath c1r4 = "/dev/xvdb"
    ∧ (resDevice c1r4).VolumeID = "u3"
    ∧ alistFind c1r4.1.attaching "i-1" = some [("/dev/xvdb", "u3")]
    ∧ (release c1r4.1 (resDevice c1r1)).2
        = some ("release on device " ++ goQuote "/dev/xvdb"
            ++ " assigned to different volume: " ++ goQuote "u1" ++ " vs " ++ goQuote "u3") := by
  decide

/-- C7 counterexample: with every pool suffix confirmed in use and no
allocator yet recorded for the node, the failed reservation reports the
message "too many EBS volumes attached to node i-1" - not the claimed
wording "too many volumes attached to node i-1" - and the failed call has
modified the registry allocator set by recording a fresh allocator. -/
theorem c7_exhaustion_counterexample :
    c7r.2 = .error "too many EBS volumes attached to node i-1"
    ∧ "too many EBS volumes attached to node i-1"
        ≠ "too many volumes attached to node i-1"
    ∧ c7r.1.deviceAllocators = [("i-1", NewDeviceAllocator)]
    ∧ (⟨[], []⟩ : DMState).deviceAllocators = []
    ∧ c7r.1.attaching = [] := by
  decide

/-- C2 counterexample: the volume vol-X is a value of the merged view (under
the empty residual key produced by stripping the device name "/dev/sd"),
yet NewBlockDevice does not return the existing mapping with
IsAlreadyAssigned true and no allocator call: it consults the allocator and
returns a freshly allocated path with IsAlreadyAssigned false. -/
theorem c2_empty_suffix_counterexample :
    ("", "vol-X") ∈ getDevicesInUse ⟨[], []⟩ c2Inst "i-1"
    ∧ (NewBlockDevice ⟨[], []⟩ (some c2Inst) "vol-X").2
        = .ok ⟨mkBlockDevice (some c2Inst) "vol-X" (devicePreffix ++ "b") false, true⟩ := by
  decide

end EbsCsi

namespace EbsCsi

/-- C6: for a volume not in the merged view, NewBlockDevice lazily records
the node allocator (fresh when absent), asks it for the next free suffix,
records prefix+suffix -> volume in the node in-flight map, deprioritizes the
chosen suffix, and returns a BlockDevice with that path and
IsAlreadyAssigned = false; an allocator exhaustion propagates as an error. -/
theorem c6_fresh_allocation (d : DMState) (inst : Ec2Instance) (vol s : String)
    (h1 : (getDevicesInUse d inst (stringValue inst.instanceId)).all
        (fun p => !(p.2 == vol)) = true) :
    (((alistFind d.deviceAllocators (stringValue inst.instanceId)).getD
        NewDeviceAllocator).GetNext (getDevicesInUse d inst (stringValue inst.instanceId))
        = .ok s →
      NewBlockDevice d (some inst) vol
        = (⟨alistInsert d.deviceAllocators (stringValue inst.instanceId)
              (((alistFind d.deviceAllocators (stringValue inst.instanceId)).getD
                NewDeviceAllocator).Deprioritize s),
            alistInsert d.attaching (stringValue inst.instanceId)
              (alistInsert (attachingFor d (stringValue inst.instanceId))
                (devicePreffix ++ s) vol)⟩,
           .ok ⟨mkBlockDevice (some inst) vol (devicePreffix ++ s) false, true⟩))
    ∧ (exceptOk (((alistFind d.deviceAllocators (stringValue inst.instanceId)).getD
        NewDeviceAllocator).GetNext (getDevicesInUse d inst (stringValue inst.instanceId)))
        = false →
      exceptOk (NewBlockDevice d (some inst) vol).2 = false) := by
  have hp : getPath (getDevicesInUse d inst (stringValue inst.instanceId)) vol = "" := by
    apply getPath_of_not_value
    intro p hpm
    have := List.all_eq_true.mp h1 p hpm
    simpa using this
  constructor
  · intro hnext
    exact NewBlockDevice_fresh d inst vol s hp hnext
  · intro hfail
    cases hge : ((alistFind d.deviceAllocators (stringValue inst.instanceId)).getD
        NewDeviceAllocator).GetNext (getDevicesInUse d inst (stringValue inst.instanceId)) with
    | ok s2 => rw [hge] at hfail; simp [exceptOk] at hfail
    | error e =>
      rw [NewBlockDevice_exhausted d inst vol e hp hge]
      simp [exceptOk]

theorem c6_fresh_allocation_witness :
    NewBlockDevice ⟨[], []⟩ (some ⟨some "i-1", []⟩) "v"
      = (⟨[("i-1", NewDeviceAllocator.Deprioritize "b")], [("i-1", [("/dev/xvdb", "v")])]⟩,
         .ok ⟨mkBlockDevice (some ⟨some "i-1", []⟩) "v" "/dev/xvdb" false, true⟩) :=
  ((c6_fresh_allocation ⟨[], []⟩ ⟨some "i-1", []⟩ "v" "b" (by decide)).1 (by decide)).trans
    (by decide)

/-- C7 amended: when the allocator reports exhaustion, NewBlockDevice fails
with "too many EBS volumes attached to node <id>" naming the node; the
in-flight map is not modified, and the allocator set is unchanged whenever
the node already has an allocator (when absent, the failed call has lazily
recorded the fresh allocator). -/
theorem c7_exhaustion_amended (d : DMState) (inst : Ec2Instance) (vol e : String)
    (h1 : (getDevicesInUse d inst (stringValue inst.instanceId)).all
        (fun p => !(p.2 == vol)) = true)
    (hnext : ((alistFind d.deviceAllocators (stringValue inst.instanceId)).getD
        NewDeviceAllocator).GetNext (getDevicesInUse d inst (stringValue inst.instanceId))
        = .error e) :
    NewBlockDevice d (some inst) vol
      = (⟨alistInsert d.deviceAllocators (stringValue inst.instanceId)
            ((alistFind d.deviceAllocators (stringValue inst.instanceId)).getD
              NewDeviceAllocator),
          d.attaching⟩,
         .error ("too many EBS volumes attached to node " ++ stringValue inst.instanceId))
    ∧ ((alistFind d.deviceAllocators (stringValue inst.instanceId)).isSome = true →
        (NewBlockDevice d (some inst) vol).1 = d) := by
  have hp : getPath (getDevicesInUse d inst (stringValue inst.instanceId)) vol = "" := by
    apply getPath_of_not_value
    intro p hpm
    have := List.all_eq_true.mp h1 p hpm
    simpa using this
  constructor
  · exact NewBlockDevice_exhausted d inst vol e hp hnext
  · intro hsome
    cases halloc : alistFind d.deviceAllocators (stringValue inst.instanceId) with
    | none => rw [halloc] at hsome; simp at hsome
    | some a =>
      rw [NewBlockDevice_exhausted d inst vol e hp hnext]
      simp only [halloc, Option.getD_some]
      rw [alistInsert_of_find halloc]

theorem c7_exhaustion_witness :
    NewBlockDevice ⟨[], []⟩ (some c7Inst) "u1"
      = (⟨[("i-1", NewDeviceAllocator)], []⟩,
         .error "too many EBS volumes attached to node i-1") :=
  ((c7_exhaustion_amended ⟨[], []⟩ c7Inst "u1" "no devices are available"
      (by decide) (by decide)).1).trans (by decide)

/-- C10: the merged view mixes key formats. For every instance whose
confirmed mappings contain volume V under a device name that strips to the
suffix f (such as /dev/xvdf or /dev/sdf) - V appearing under no other
confirmed name, the f binding not overwritten by a later mapping - and
every registry state whose node in-flight map holds no entry for V (its
keys carry the /dev/xvd prefix, so none is the bare suffix), NewBlockDevice
and GetBlockDevice return a BlockDevice whose Path is the bare suffix "f"
with no device prefix, with no state change; whereas every freshly
allocated device (any state, instance and volume on the allocator branch)
carries the full devicePreffix-prefixed path, under which its in-flight
entry is keyed. -/
theorem c10_mixed_key_formats (d : DMState) (inst : Ec2Instance) (V dn : String)
    (h1 : BlockDeviceMapping.mk (some dn) (some V) ∈ inst.blockDeviceMappings)
    (h2 : stripDeviceName dn = "f")
    (h3 : inst.blockDeviceMappings.all (fun bd =>
        !(stripDeviceName (stringValue bd.deviceName) == "f")
        || ((stringValue bd.deviceName == dn) && (stringValue bd.ebsVolumeId == V))) = true)
    (h4 : inst.blockDeviceMappings.all (fun bd =>
        !(stringValue bd.ebsVolumeId == V)
        || (stripDeviceName (stringValue bd.deviceName) == "f")) = true)
    (h5 : (attachingFor d (stringValue inst.instanceId)).all (fun p => !(p.2 == V)) = true)
    (h6 : alistFind (attachingFor d (stringValue inst.instanceId)) "f" = none) :
    NewBlockDevice d (some inst) V
      = (d, .ok ⟨mkBlockDevice (some inst) V "f" true, false⟩)
    ∧ (GetBlockDevice d (some inst) V).2 = .ok ⟨some inst, "f", V, true, false⟩
    ∧ (∀ (d2 : DMState) (inst2 : Ec2Instance) (vol2 : String) (r : ReserveRes),
        (NewBlockDevice d2 (some inst2) vol2).2 = .ok r → r.allocatorCalled = true →
        ∃ s2, r.device.Path = devicePreffix ++ s2
          ∧ alistFind (attachingFor (NewBlockDevice d2 (some inst2) vol2).1
              (stringValue inst2.instanceId)) (devicePreffix ++ s2) = some vol2) := by
  have hgp : getPath (getDevicesInUse d inst (stringValue inst.instanceId)) V = "f" := by
    have hall : ∀ q ∈ inst.blockDeviceMappings.map
        (fun bd => (stripDeviceName (stringValue bd.deviceName), stringValue bd.ebsVolumeId)),
        q.1 = "f" → q.2 = V := by
      intro q hq hqf
      obtain ⟨bd, hbd, hbdq⟩ := List.mem_map.mp hq
      subst hbdq
      simp only [] at hqf ⊢
      have h3bd := List.all_eq_true.mp h3 bd hbd
      simp only [hqf, beq_self_eq_true, Bool.not_true, Bool.false_or,
        Bool.and_eq_true, beq_iff_eq] at h3bd
      exact h3bd.2
    have hex : ∃ q ∈ inst.blockDeviceMappings.map
        (fun bd => (stripDeviceName (stringValue bd.deviceName), stringValue bd.ebsVolumeId)),
        q.1 = "f" := by
      refine ⟨(stripDeviceName (stringValue (some dn)), stringValue (some V)),
        List.mem_map.mpr ⟨BlockDeviceMapping.mk (some dn) (some V), h1, rfl⟩, ?_⟩
      simp [stringValue, h2]
    have hconf : alistFind (confirmedMappings inst) "f" = some V := by
      unfold confirmedMappings
      exact alistFind_smapUnion_const hall hex []
    have hattne : ∀ q ∈ attachingFor d (stringValue inst.instanceId), q.1 ≠ "f" :=
      forall_ne_of_alistFind_none h6
    have hfm : alistFind (getDevicesInUse d inst (stringValue inst.instanceId)) "f"
        = some V := by
      rw [getDevicesInUse_eq, alistFind_smapUnion_absent hattne, hconf]
    apply getPath_unique (alistFind_mem hfm)
    intro q hq hq2
    rw [getDevicesInUse_eq] at hq
    rcases mem_smapUnion _ _ hq with hc | ha
    · unfold confirmedMappings at hc
      rcases mem_smapUnion _ _ hc with hc0 | hcl
      · simp at hc0
      · obtain ⟨bd, hbd, hbdq⟩ := List.mem_map.mp hcl
        subst hbdq
        simp only [] at hq2 ⊢
        have h4bd := List.all_eq_true.mp h4 bd hbd
        simp only [hq2, beq_self_eq_true, Bool.not_true, Bool.false_or,
          beq_iff_eq] at h4bd
        exact h4bd
    · have h5q := List.all_eq_true.mp h5 q ha
      simp [hq2] at h5q
  refine ⟨?_, ?_, ?_⟩
  · have E := NewBlockDevice_assigned d inst V (by rw [hgp]; decide)
    rw [hgp] at E
    exact E
  · simp [GetBlockDevice, hgp, mkBlockDevice]
  · intro d2 inst2 vol2 r hok hcall
    by_cases hp : getPath (getDevicesInUse d2 inst2 (stringValue inst2.instanceId)) vol2 = ""
    · cases hge : ((alistFind d2.deviceAllocators (stringValue inst2.instanceId)).getD
          NewDeviceAllocator).GetNext
          (getDevicesInUse d2 inst2 (stringValue inst2.instanceId)) with
      | error e =>
        rw [NewBlockDevice_exhausted d2 inst2 vol2 e hp hge] at hok
        simp at hok
      | ok s2 =>
        have E := NewBlockDevice_fresh d2 inst2 vol2 s2 hp hge
        rw [E] at hok
        injection hok with hr
        refine ⟨s2, ?_, ?_⟩
        · rw [← hr]
          rfl
        · rw [E]
          simp [attachingFor, alistFind_insert_self]
    · rw [NewBlockDevice_assigned d2 inst2 vol2 hp] at hok
      injection hok with hr
      rw [← hr] at hcall
      simp [mkBlockDevice] at hcall

theorem c10_mixed_key_formats_witness :
    (NewBlockDevice ⟨[], [("i-9", [("/dev/xvdg", "vol-8")])]⟩
        (some ⟨some "i-9", [⟨some "/dev/xvdg", some "vol-8"⟩,
          ⟨some "/dev/xvdf", some "vol-7"⟩, ⟨some "/dev/sdh", some "vol-9"⟩]⟩) "vol-7"
      = (⟨[], [("i-9", [("/dev/xvdg", "vol-8")])]⟩,
         .ok ⟨mkBlockDevice (some ⟨some "i-9", [⟨some "/dev/xvdg", some "vol-8"⟩,
           ⟨some "/dev/xvdf", some "vol-7"⟩, ⟨some "/dev/sdh", some "vol-9"⟩]⟩)
           "vol-7" "f" true, false⟩))
    ∧ ((GetBlockDevice ⟨[], [("i-9", [("/dev/xvdg", "vol-8")])]⟩
        (some ⟨some "i-9", [⟨some "/dev/xvdg", some "vol-8"⟩,
          ⟨some "/dev/xvdf", some "vol-7"⟩, ⟨some "/dev/sdh", some "vol-9"⟩]⟩) "vol-7").2
      = .ok ⟨some ⟨some "i-9", [⟨some "/dev/xvdg", some "vol-8"⟩,
          ⟨some "/dev/xvdf", some "vol-7"⟩, ⟨some "/dev/sdh", some "vol-9"⟩]⟩,
          "f", "vol-7", true, false⟩)
    ∧ (NewBlockDevice ⟨[], []⟩ (some ⟨some "i-9", [⟨some "/dev/sdf", some "vol-7"⟩]⟩) "vol-7"
      = (⟨[], []⟩, .ok ⟨mkBlockDevice (some ⟨some "i-9", [⟨some "/dev/sdf", some "vol-7"⟩]⟩)
          "vol-7" "f" true, false⟩)) := by
  have ha := c10_mixed_key_formats ⟨[], [("i-9", [("/dev/xvdg", "vol-8")])]⟩
    ⟨some "i-9", [⟨some "/dev/xvdg", some "vol-8"⟩,
      ⟨some "/dev/xvdf", some "vol-7"⟩, ⟨some "/dev/sdh", some "vol-9"⟩]⟩
    "vol-7" "/dev/xvdf" (by decide) (by decide) (by decide) (by decide)
    (by decide) (by decide)
  have hb := c10_mixed_key_formats ⟨[], []⟩ ⟨some "i-9", [⟨some "/dev/sdf", some "vol-7"⟩]⟩
    "vol-7" "/dev/sdf" (by decide) (by decide) (by decide) (by decide)
    (by decide) (by decide)
  exact ⟨ha.1, ha.2.1, hb.1⟩

end EbsCsi

namespace EbsCsi

/-- C2 amended: whenever the volume id appears as a value of the merged view
under at most one entry, and never under an empty key, NewBlockDevice
returns the existing path (unique, so the randomized Go map iteration order
cannot change it) with IsAlreadyAssigned = true, makes no allocator call
and leaves the state untouched; and under the same provisos, reserving the
same (node, volume) twice before release returns the identical path both
times, with IsAlreadyAssigned = true, no allocator call and no state change
on the second call. -/
theorem c2_reserve_idempotent_amended (d : DMState) (inst : Ec2Instance) (vol : String)
    (hnodup : KeysNodup (attachingFor d (stringValue inst.instanceId)))
    (hne : (getDevicesInUse d inst (stringValue inst.instanceId)).all
        (fun p => !(p.2 == vol) || !(p.1 == "")) = true)
    (hone : ((getDevicesInUse d inst (stringValue inst.instanceId)).filter
        (fun p => p.2 == vol)).length ≤ 1) :
    ((getDevicesInUse d inst (stringValue inst.instanceId)).any
        (fun p => p.2 == vol) = true →
      NewBlockDevice d (some inst) vol
        = (d, .ok ⟨mkBlockDevice (some inst) vol
            (getPath (getDevicesInUse d inst (stringValue inst.instanceId)) vol) true, false⟩)
      ∧ (getPath (getDevicesInUse d inst (stringValue inst.instanceId)) vol, vol)
          ∈ getDevicesInUse d inst (stringValue inst.instanceId)
      ∧ (∀ q ∈ getDevicesInUse d inst (stringValue inst.instanceId), q.2 = vol →
          q.1 = getPath (getDevicesInUse d inst (stringValue inst.instanceId)) vol))
    ∧ (resOk (NewBlockDevice d (some inst) vol) = true →
      NewBlockDevice (NewBlockDevice d (some inst) vol).1 (some inst) vol
        = ((NewBlockDevice d (some inst) vol).1,
           .ok ⟨mkBlockDevice (some inst) vol
             (resPath (NewBlockDevice d (some inst) vol)) true, false⟩)) := by
  have hne2 : ∀ k : String, (k, vol) ∈ getDevicesInUse d inst (stringValue inst.instanceId)
      → k ≠ "" := by
    intro k hk hk0
    have hhh := List.all_eq_true.mp hne (k, vol) hk
    subst hk0
    simp at hhh
  constructor
  · intro hany
    obtain ⟨p, hpm, hpv⟩ := List.any_eq_true.mp hany
    have hmem : (p.1, vol) ∈ getDevicesInUse d inst (stringValue inst.instanceId) := by
      obtain ⟨p1, p2⟩ := p
      simp only [beq_iff_eq] at hpv
      subst hpv
      exact hpm
    have hgpmem : (getPath (getDevicesInUse d inst (stringValue inst.instanceId)) vol, vol)
        ∈ getDevicesInUse d inst (stringValue inst.instanceId) := by
      rcases getPath_empty_or_mem (getDevicesInUse d inst (stringValue inst.instanceId)) vol
        with hh | hh
      · exact absurd hmem (not_value_of_getPath_empty hh hne2 p.1)
      · exact hh
    refine ⟨NewBlockDevice_assigned d inst vol (hne2 _ hgpmem), hgpmem, ?_⟩
    intro q hq hq2
    have hqf : q ∈ (getDevicesInUse d inst (stringValue inst.instanceId)).filter
        (fun p => p.2 == vol) := List.mem_filter.mpr ⟨hq, by simp [hq2]⟩
    have hgf : (getPath (getDevicesInUse d inst (stringValue inst.instanceId)) vol, vol)
        ∈ (getDevicesInUse d inst (stringValue inst.instanceId)).filter
          (fun p => p.2 == vol) := List.mem_filter.mpr ⟨hgpmem, by simp⟩
    have hq_eq := eq_of_mem_of_length_le_one hone hqf hgf
    rw [hq_eq]
  · intro hok
    by_cases hp : getPath (getDevicesInUse d inst (stringValue inst.instanceId)) vol = ""
    case neg =>
      have E := NewBlockDevice_assigned d inst vol hp
      rw [E]
      simp only [resPath, resDevice, mkBlockDevice]
      exact E
    case pos =>
      cases hge : ((alistFind d.deviceAllocators (stringValue inst.instanceId)).getD
          NewDeviceAllocator).GetNext (getDevicesInUse d inst (stringValue inst.instanceId)) with
      | error e =>
        rw [NewBlockDevice_exhausted d inst vol e hp hge] at hok
        simp [resOk] at hok
      | ok s =>
        have hv : ∀ k : String,
            (k, vol) ∉ getDevicesInUse d inst (stringValue inst.instanceId) :=
          not_value_of_getPath_empty hp hne2
        have natt2 : KeysNodup (alistInsert
            (attachingFor d (stringValue inst.instanceId)) (devicePreffix ++ s) vol) :=
          keysNodup_alistInsert _ _ hnodup
        have E := NewBlockDevice_fresh d inst vol s hp hge
        -- the state after the first (fresh) call
        have hatt2 : attachingFor
            (⟨alistInsert d.deviceAllocators (stringValue inst.instanceId)
                (((alistFind d.deviceAllocators (stringValue inst.instanceId)).getD
                  NewDeviceAllocator).Deprioritize s),
              alistInsert d.attaching (stringValue inst.instanceId)
                (alistInsert (attachingFor d (stringValue inst.instanceId))
                  (devicePreffix ++ s) vol)⟩ : DMState)
            (stringValue inst.instanceId)
            = alistInsert (attachingFor d (stringValue inst.instanceId))
                (devicePreffix ++ s) vol := by
          simp [attachingFor, alistFind_insert_self]
        have hM2eq : getDevicesInUse
            (⟨alistInsert d.deviceAllocators (stringValue inst.instanceId)
                (((alistFind d.deviceAllocators (stringValue inst.instanceId)).getD
                  NewDeviceAllocator).Deprioritize s),
              alistInsert d.attaching (stringValue inst.instanceId)
                (alistInsert (attachingFor d (stringValue inst.instanceId))
                  (devicePreffix ++ s) vol)⟩ : DMState)
            inst (stringValue inst.instanceId)
            = smapUnion (confirmedMappings inst)
                (alistInsert (attachingFor d (stringValue inst.instanceId))
                  (devicePreffix ++ s) vol) := by
          rw [getDevicesInUse_eq, hatt2]
        have nM2 : KeysNodup (smapUnion (confirmedMappings inst)
            (alistInsert (attachingFor d (stringValue inst.instanceId))
              (devicePreffix ++ s) vol)) :=
          keysNodup_smapUnion _ _ (keysNodup_confirmed inst)
        have hfindP : alistFind (smapUnion (confirmedMappings inst)
            (alistInsert (attachingFor d (stringValue inst.instanceId))
              (devicePreffix ++ s) vol)) (devicePreffix ++ s) = some vol := by
          rw [alistFind_smapUnion natt2, alistFind_insert_self]
        have hmemP : (devicePreffix ++ s, vol) ∈ smapUnion (confirmedMappings inst)
            (alistInsert (attachingFor d (stringValue inst.instanceId))
              (devicePreffix ++ s) vol) := alistFind_mem hfindP
        have huniq : ∀ q ∈ smapUnion (confirmedMappings inst)
            (alistInsert (attachingFor d (stringValue inst.instanceId))
              (devicePreffix ++ s) vol), q.2 = vol → q.1 = devicePreffix ++ s := by
          intro q hq hq2
          obtain ⟨q1, qv⟩ := q
          simp only [] at hq2
          rw [hq2] at hq
          show q1 = devicePreffix ++ s
          have hfq : alistFind (smapUnion (confirmedMappings inst)
              (alistInsert (attachingFor d (stringValue inst.instanceId))
                (devicePreffix ++ s) vol)) q1 = some vol := mem_alistFind nM2 hq
          rw [alistFind_smapUnion natt2] at hfq
          cases haf : alistFind (alistInsert (attachingFor d (stringValue inst.instanceId))
              (devicePreffix ++ s) vol) q1 with
          | some w =>
            rw [haf] at hfq
            simp only [] at hfq
            injection hfq with hw
            rw [hw] at haf
            by_cases hq1P : q1 = devicePreffix ++ s
            · exact hq1P
            · exfalso
              have haf2 : alistFind (attachingFor d (stringValue inst.instanceId)) q1
                  = some vol := by
                rw [← alistFind_insert_ne (attachingFor d (stringValue inst.instanceId))
                  vol hq1P]
                exact haf
              have hmm : (q1, vol) ∈ getDevicesInUse d inst (stringValue inst.instanceId) := by
                apply alistFind_mem
                rw [getDevicesInUse_eq, alistFind_smapUnion hnodup, haf2]
              exact hv q1 hmm
          | none =>
            rw [haf] at hfq
            simp only [] at hfq
            exfalso
            have hq1P : q1 ≠ devicePreffix ++ s := by
              intro hh
              rw [hh, alistFind_insert_self] at haf
              cases haf
            have hafatt : alistFind (attachingFor d (stringValue inst.instanceId)) q1
                = none := by
              rw [← alistFind_insert_ne (attachingFor d (stringValue inst.instanceId))
                vol hq1P]
              exact haf
            have hmm : (q1, vol) ∈ getDevicesInUse d inst (stringValue inst.instanceId) := by
              apply alistFind_mem
              rw [getDevicesInUse_eq, alistFind_smapUnion hnodup, hafatt]
              exact hfq
            exact hv q1 hmm
        have hgp2 : getPath (smapUnion (confirmedMappings inst)
            (alistInsert (attachingFor d (stringValue inst.instanceId))
              (devicePreffix ++ s) vol)) vol = devicePreffix ++ s :=
          getPath_unique hmemP huniq
        rw [E]
        simp only [resPath, resDevice, mkBlockDevice]
        have hgp2' : getPath (getDevicesInUse
            (⟨alistInsert d.deviceAllocators (stringValue inst.instanceId)
                (((alistFind d.deviceAllocators (stringValue inst.instanceId)).getD
                  NewDeviceAllocator).Deprioritize s),
              alistInsert d.attaching (stringValue inst.instanceId)
                (alistInsert (attachingFor d (stringValue inst.instanceId))
                  (devicePreffix ++ s) vol)⟩ : DMState)
            inst (stringValue inst.instanceId)) vol = devicePreffix ++ s := by
          rw [hM2eq]
          exact hgp2
        rw [NewBlockDevice_assigned _ inst vol (by rw [hgp2']; exact devicePreffix_append_ne s)]
        rw [hgp2']
        rfl

theorem c2_reserve_idempotent_witness :
    (NewBlockDevice ⟨[], []⟩
        (some ⟨some "i-1", [⟨some "/dev/xvdf", some "vol-X"⟩]⟩) "vol-X"
      = (⟨[], []⟩, .ok ⟨mkBlockDevice
          (some ⟨some "i-1", [⟨some "/dev/xvdf", some "vol-X"⟩]⟩) "vol-X"
          (getPath (getDevicesInUse ⟨[], []⟩
            ⟨some "i-1", [⟨some "/dev/xvdf", some "vol-X"⟩]⟩
            (stringValue (Ec2Instance.mk (some "i-1")
              [⟨some "/dev/xvdf", some "vol-X"⟩]).instanceId)) "vol-X") true, false⟩))
    ∧ ((getPath (getDevicesInUse ⟨[], []⟩
          ⟨some "i-1", [⟨some "/dev/xvdf", some "vol-X"⟩]⟩
          (stringValue (Ec2Instance.mk (some "i-1")
            [⟨some "/dev/xvdf", some "vol-X"⟩]).instanceId)) "vol-X", "vol-X")
        ∈ getDevicesInUse ⟨[], []⟩ ⟨some "i-1", [⟨some "/dev/xvdf", some "vol-X"⟩]⟩
            (stringValue (Ec2Instance.mk (some "i-1")
              [⟨some "/dev/xvdf", some "vol-X"⟩]).instanceId)) := by
  have h := (c2_reserve_idempotent_amended ⟨[], []⟩
    ⟨some "i-1", [⟨some "/dev/xvdf", some "vol-X"⟩]⟩ "vol-X"
    (by decide) (by decide) (by decide)).1 (by decide)
  exact ⟨h.1, h.2.1⟩

end EbsCsi
